import Mathlib

/-!
Verification of the SEVAI explainable causal reasoning engine.

Shallow embedding of the Python sources:
* `src/causal/confidence.py`  — `ConfidenceScorer`
* `src/causal/graph.py`       — `CausalGraph`
* `src/causal/bias_detector.py` — `BiasDetector`
* `src/storage/vault.py`      — `ExplainabilityVault`

Python floats are modelled as rationals (`ℚ`); Python exceptions are
modelled as `Except` values whose error constructors follow the spec's
error taxonomy (`RangeError`, `ReferenceError`, `NotFoundError`,
`StorageError` — all raised as `ValueError`/`IntegrityError` in the
Python source).  Mutating methods are modelled by explicit state
passing: a method that may raise returns the (unchanged) receiver next
to the `Except` result, mirroring the fact that the Python code raises
before any mutation or rolls the transaction back.
-/

namespace SEVAI

/-! ## Confidence scorer (`src/causal/confidence.py`) -/

/-- Error raised by `ConfidenceScorer.calculate` on an out-of-range
factor.  The Python code raises `ValueError`; the spec's taxonomy calls
this `RangeError`. -/
inductive ConfidenceError where
  | rangeError : String → ConfidenceError
  deriving DecidableEq, Repr

/-- Embeds `ConfidenceScorer.WEIGHTS["evidence_quality"]` (0.40). -/
def WEIGHT_evidence_quality : ℚ := 40/100

/-- Embeds `ConfidenceScorer.WEIGHTS["reasoning_coherence"]` (0.30). -/
def WEIGHT_reasoning_coherence : ℚ := 30/100

/-- Embeds `ConfidenceScorer.WEIGHTS["llm_confidence"]` (0.20). -/
def WEIGHT_llm_confidence : ℚ := 20/100

/-- Embeds `ConfidenceScorer.WEIGHTS["context_match"]` (0.10). -/
def WEIGHT_context_match : ℚ := 10/100

/-- Embeds `ConfidenceScorer.DECAY_FACTOR` (0.95). -/
def DECAY_FACTOR : ℚ := 95/100

/-- The validation loop at the top of `ConfidenceScorer.calculate`:
`for value in [...]: if not 0.0 <= value <= 1.0: raise ValueError(...)`. -/
def validateFactors : List ℚ → Except ConfidenceError Unit
  | [] => .ok ()
  | v :: rest =>
    if 0 ≤ v ∧ v ≤ 1 then validateFactors rest
    else .error (.rangeError ("Confidence factor must be between 0 and 1, got " ++ toString v))

/-- Embeds `ConfidenceScorer.calculate`: validates the four factors, then
returns the fixed-weight dot product. -/
def calculate (evidence_quality reasoning_coherence llm_confidence context_match : ℚ) :
    Except ConfidenceError ℚ :=
  match validateFactors [evidence_quality, reasoning_coherence, llm_confidence, context_match] with
  | .error e => .error e
  | .ok _ =>
    .ok (evidence_quality * WEIGHT_evidence_quality +
         reasoning_coherence * WEIGHT_reasoning_coherence +
         llm_confidence * WEIGHT_llm_confidence +
         context_match * WEIGHT_context_match)

/-- Embeds `ConfidenceScorer.aggregate_chain`: empty list yields `0.0`,
otherwise the minimum of the list (`min(confidences)`), multiplied by
`DECAY_FACTOR ** len(confidences)` when `use_decay` is set. -/
def aggregate_chain (confidences : List ℚ) (use_decay : Bool) : ℚ :=
  match confidences with
  | [] => 0
  | c :: cs =>
    let min_confidence := cs.foldl min c
    if use_decay then min_confidence * DECAY_FACTOR ^ (c :: cs).length
    else min_confidence

/-- Embeds `ConfidenceScorer.aggregate_parallel`: empty list yields `0.0`,
otherwise the arithmetic mean. -/
def aggregate_parallel (confidences : List ℚ) : ℚ :=
  match confidences with
  | [] => 0
  | c :: cs => ((c :: cs).sum) / ((c :: cs).length : ℚ)

/-- Embeds `ConfidenceScorer.THRESHOLD_HIGH` (0.80). -/
def THRESHOLD_HIGH : ℚ := 80/100

/-- Embeds `ConfidenceScorer.THRESHOLD_MEDIUM` (0.60). -/
def THRESHOLD_MEDIUM : ℚ := 60/100

/-- Embeds `ConfidenceScorer.THRESHOLD_LOW` (0.40). -/
def THRESHOLD_LOW : ℚ := 40/100

/-- Embeds `ConfidenceScorer.get_level` (the spec calls it `classify`). -/
def get_level (confidence : ℚ) : String :=
  if confidence ≥ THRESHOLD_HIGH then "high"
  else if confidence ≥ THRESHOLD_MEDIUM then "medium"
  else if confidence ≥ THRESHOLD_LOW then "low"
  else "insufficient"

/-! ### Helper lemmas about the fold-based minimum -/

theorem foldl_min_mem (c : ℚ) (cs : List ℚ) : cs.foldl min c ∈ c :: cs := by
  induction cs generalizing c with
  | nil => simp
  | cons x xs ih =>
    have h := ih (min c x)
    rcases List.mem_cons.mp h with h' | h'
    · rcases min_choice c x with hm | hm
      · exact List.mem_cons.mpr (Or.inl (h'.trans hm))
      · exact List.mem_cons.mpr (Or.inr (List.mem_cons.mpr (Or.inl (h'.trans hm))))
    · exact List.mem_cons.mpr (Or.inr (List.mem_cons.mpr (Or.inr h')))

theorem foldl_min_le (c : ℚ) (cs : List ℚ) : ∀ x ∈ c :: cs, cs.foldl min c ≤ x := by
  induction cs generalizing c with
  | nil =>
    intro x hx
    have hx' : x = c := by simpa using hx
    simp [hx']
  | cons y ys ih =>
    intro x hx
    rcases List.mem_cons.mp hx with h | h
    · subst h
      calc ys.foldl min (min x y) ≤ min x y := ih (min x y) _ (List.mem_cons_self _ _)
        _ ≤ x := min_le_left _ _
    · rcases List.mem_cons.mp h with h' | h'
      · subst h'
        calc ys.foldl min (min c x) ≤ min c x := ih (min c x) _ (List.mem_cons_self _ _)
          _ ≤ x := min_le_right _ _
      · exact ih (min c y) x (List.mem_cons.mpr (Or.inr h'))

theorem validateFactors_ok (l : List ℚ) (h : ∀ x ∈ l, 0 ≤ x ∧ x ≤ 1) :
    validateFactors l = .ok () := by
  induction l with
  | nil => rfl
  | cons v rest ih =>
    have hv := h v (List.mem_cons_self _ _)
    simp only [validateFactors, if_pos hv]
    exact ih (fun x hx => h x (List.mem_cons.mpr (Or.inr hx)))

theorem validateFactors_err (l : List ℚ) (h : ∃ x ∈ l, ¬(0 ≤ x ∧ x ≤ 1)) :
    ∃ msg, validateFactors l = .error (.rangeError msg) := by
  induction l with
  | nil => simp at h
  | cons v rest ih =>
    by_cases hv : 0 ≤ v ∧ v ≤ 1
    · simp only [validateFactors, if_pos hv]
      apply ih
      rcases h with ⟨x, hx, hbad⟩
      rcases List.mem_cons.mp hx with rfl | hx'
      · exact absurd hv hbad
      · exact ⟨x, hx', hbad⟩
    · refine ⟨"Confidence factor must be between 0 and 1, got " ++ toString v, ?_⟩
      simp only [validateFactors, if_neg hv]

theorem calculate_ok (a b c d : ℚ)
    (ha0 : 0 ≤ a) (ha1 : a ≤ 1) (hb0 : 0 ≤ b) (hb1 : b ≤ 1)
    (hc0 : 0 ≤ c) (hc1 : c ≤ 1) (hd0 : 0 ≤ d) (hd1 : d ≤ 1) :
    calculate a b c d = .ok (40/100 * a + 30/100 * b + 20/100 * c + 10/100 * d) := by
  have hval : validateFactors [a, b, c, d] = .ok () := by
    apply validateFactors_ok
    intro x hx
    simp only [List.mem_cons, List.not_mem_nil, or_false] at hx
    rcases hx with rfl | rfl | rfl | rfl
    · exact ⟨ha0, ha1⟩
    · exact ⟨hb0, hb1⟩
    · exact ⟨hc0, hc1⟩
    · exact ⟨hd0, hd1⟩
  simp only [calculate, hval]
  simp only [WEIGHT_evidence_quality, WEIGHT_reasoning_coherence, WEIGHT_llm_confidence,
    WEIGHT_context_match, Except.ok.injEq]
  ring

theorem calculate_ok_inv (a b c d v : ℚ) (h : calculate a b c d = .ok v) :
    v = 40/100 * a + 30/100 * b + 20/100 * c + 10/100 * d := by
  rcases hval : validateFactors [a, b, c, d] with msg | u
  · rw [calculate, hval] at h
    exact Except.noConfusion h
  · rw [calculate, hval, Except.ok.injEq] at h
    rw [← h]
    simp only [WEIGHT_evidence_quality, WEIGHT_reasoning_coherence, WEIGHT_llm_confidence,
      WEIGHT_context_match]
    ring

/-- C3: `calculate` fails with `RangeError` when any factor is outside
`[0,1]`; for factors in `[0,1]` it returns exactly
`0.40·evidenceQuality + 0.30·reasoningCoherence + 0.20·llmConfidence +
0.10·contextMatch`, and the returned score is monotonically
non-decreasing in each factor individually. -/
theorem C3_calculate_weighted_sum :
    (∀ a b c d : ℚ,
        (¬(0 ≤ a ∧ a ≤ 1) ∨ ¬(0 ≤ b ∧ b ≤ 1) ∨ ¬(0 ≤ c ∧ c ≤ 1) ∨ ¬(0 ≤ d ∧ d ≤ 1)) →
        ∃ msg, calculate a b c d = .error (.rangeError msg)) ∧
    (∀ a b c d : ℚ, 0 ≤ a → a ≤ 1 → 0 ≤ b → b ≤ 1 → 0 ≤ c → c ≤ 1 → 0 ≤ d → d ≤ 1 →
        calculate a b c d = .ok (40/100 * a + 30/100 * b + 20/100 * c + 10/100 * d)) ∧
    (∀ a a' b c d v v' : ℚ,
        calculate a b c d = .ok v → calculate a' b c d = .ok v' → a ≤ a' → v ≤ v') ∧
    (∀ a b b' c d v v' : ℚ,
        calculate a b c d = .ok v → calculate a b' c d = .ok v' → b ≤ b' → v ≤ v') ∧
    (∀ a b c c' d v v' : ℚ,
        calculate a b c d = .ok v → calculate a b c' d = .ok v' → c ≤ c' → v ≤ v') ∧
    (∀ a b c d d' v v' : ℚ,
        calculate a b c d = .ok v → calculate a b c d' = .ok v' → d ≤ d' → v ≤ v') := by
  refine ⟨?_, ?_, ?_, ?_, ?_, ?_⟩
  · intro a b c d hbad
    have hex : ∃ x ∈ [a, b, c, d], ¬(0 ≤ x ∧ x ≤ 1) := by
      rcases hbad with h | h | h | h
      · exact ⟨a, by simp, h⟩
      · exact ⟨b, by simp, h⟩
      · exact ⟨c, by simp, h⟩
      · exact ⟨d, by simp, h⟩
    rcases validateFactors_err _ hex with ⟨msg, hmsg⟩
    refine ⟨msg, ?_⟩
    simp only [calculate, hmsg]
  · exact calculate_ok
  · intro a a' b c d v v' h h' hle
    rw [calculate_ok_inv a b c d v h, calculate_ok_inv a' b c d v' h']
    linarith
  · intro a b b' c d v v' h h' hle
    rw [calculate_ok_inv a b c d v h, calculate_ok_inv a b' c d v' h']
    linarith
  · intro a b c c' d v v' h h' hle
    rw [calculate_ok_inv a b c d v h, calculate_ok_inv a b c' d v' h']
    linarith
  · intro a b c d d' v v' h h' hle
    rw [calculate_ok_inv a b c d v h, calculate_ok_inv a b c d' v' h']
    linarith

/-- Witness for C3: a factor of 2 is rejected with a `RangeError`, and
`calculate(0.8, 0.9, 0.7, 0.85) = 0.815 = 163/200`. -/
theorem C3_calculate_weighted_sum_witness :
    (calculate 2 0 0 0).toOption = none ∧
    calculate (8/10) (9/10) (7/10) (85/100) = Except.ok (163/200) := by
  constructor
  · obtain ⟨msg, hmsg⟩ := C3_calculate_weighted_sum.1 2 0 0 0 (Or.inl (by norm_num))
    rw [hmsg]
    rfl
  · have h := C3_calculate_weighted_sum.2.1 (8/10) (9/10) (7/10) (85/100)
      (by norm_num) (by norm_num) (by norm_num) (by norm_num)
      (by norm_num) (by norm_num) (by norm_num) (by norm_num)
    rw [h]
    norm_num

/-- C4 counterexample: with the in-range chain `[0]` the decayed value
equals the undecayed value (both are 0), so decay does not *strictly*
decrease the score for every non-empty list. -/
theorem C4_decay_not_strict_counterexample :
    aggregate_chain [0] true = aggregate_chain [0] false ∧
    aggregate_chain [0] true = 0 := by
  constructor <;> norm_num [aggregate_chain, DECAY_FACTOR]

/-- C4 (amended): for every non-empty list, `aggregate_chain` without
decay returns the minimum of the list; with decay it returns that
minimum multiplied by `0.95 ^ length`; the decayed value never exceeds
the undecayed one when the confidences are non-negative, and is
strictly smaller whenever the minimum is positive; the empty list
yields 0.0 for both `aggregate_chain` and `aggregate_parallel`. -/
theorem C4_aggregate_chain_amended :
    (∀ (c : ℚ) (cs : List ℚ),
        aggregate_chain (c :: cs) false ∈ c :: cs ∧
        (∀ x ∈ c :: cs, aggregate_chain (c :: cs) false ≤ x)) ∧
    (∀ (c : ℚ) (cs : List ℚ),
        aggregate_chain (c :: cs) true =
          aggregate_chain (c :: cs) false * DECAY_FACTOR ^ (c :: cs).length) ∧
    (∀ (c : ℚ) (cs : List ℚ), (∀ x ∈ c :: cs, 0 ≤ x) →
        aggregate_chain (c :: cs) true ≤ aggregate_chain (c :: cs) false) ∧
    (∀ (c : ℚ) (cs : List ℚ), 0 < aggregate_chain (c :: cs) false →
        aggregate_chain (c :: cs) true < aggregate_chain (c :: cs) false) ∧
    aggregate_chain [] true = 0 ∧ aggregate_chain [] false = 0 ∧
    aggregate_parallel [] = 0 := by
  have hfalse : ∀ (c : ℚ) (cs : List ℚ), aggregate_chain (c :: cs) false = cs.foldl min c := by
    intro c cs
    simp [aggregate_chain]
  refine ⟨?_, ?_, ?_, ?_, rfl, rfl, rfl⟩
  · intro c cs
    rw [hfalse]
    exact ⟨foldl_min_mem c cs, foldl_min_le c cs⟩
  · intro c cs
    simp [aggregate_chain]
  · intro c cs hnn
    rw [hfalse]
    have hm : 0 ≤ cs.foldl min c := hnn _ (foldl_min_mem c cs)
    have hpow : DECAY_FACTOR ^ (c :: cs).length ≤ 1 := by
      apply pow_le_one₀
      · norm_num [DECAY_FACTOR]
      · norm_num [DECAY_FACTOR]
    calc cs.foldl min c * DECAY_FACTOR ^ (c :: cs).length
        ≤ cs.foldl min c * 1 := by
          exact mul_le_mul_of_nonneg_left hpow hm
      _ = cs.foldl min c :=
          mul_one _
  · intro c cs hpos
    rw [hfalse] at hpos ⊢
    have hpow : DECAY_FACTOR ^ (c :: cs).length < 1 := by
      apply pow_lt_one₀
      · norm_num [DECAY_FACTOR]
      · norm_num [DECAY_FACTOR]
      · simp
    calc cs.foldl min c * DECAY_FACTOR ^ (c :: cs).length
        < cs.foldl min c * 1 := by
          exact mul_lt_mul_of_pos_left hpow hpos
      _ = cs.foldl min c := mul_one _

/-- Witness for C4 (amended) at the chain `[0.9, 0.8]`: the undecayed
aggregate is the minimum 0.8, the decayed aggregate is
`0.8 · 0.95² = 0.722`, which is strictly below 0.8. -/
theorem C4_aggregate_chain_amended_witness :
    aggregate_chain [9/10, 8/10] false = 8/10 ∧
    aggregate_chain [9/10, 8/10] true = 8/10 * (95/100) ^ 2 ∧
    aggregate_chain [9/10, 8/10] true ≤ aggregate_chain [9/10, 8/10] false ∧
    aggregate_chain [9/10, 8/10] true < aggregate_chain [9/10, 8/10] false := by
  have h1 : aggregate_chain [9/10, 8/10] false = 8/10 := by
    norm_num [aggregate_chain]
  refine ⟨h1, ?_, ?_, ?_⟩
  · have h := C4_aggregate_chain_amended.2.1 (9/10) [8/10]
    rw [h, h1]
    norm_num [DECAY_FACTOR]
  · apply C4_aggregate_chain_amended.2.2.1 (9/10) [8/10]
    intro x hx
    simp only [List.mem_cons, List.not_mem_nil, or_false] at hx
    rcases hx with rfl | rfl <;> norm_num
  · apply C4_aggregate_chain_amended.2.2.2.1 (9/10) [8/10]
    rw [h1]
    norm_num

/-- C7: `get_level` classifies confidences with lower bounds inclusive
in each band: `≥ 0.80` is high, `[0.60, 0.80)` is medium, `[0.40,
0.60)` is low, `< 0.40` is insufficient. -/
theorem C7_get_level_bands (c : ℚ) :
    (80/100 ≤ c → get_level c = "high") ∧
    (60/100 ≤ c → c < 80/100 → get_level c = "medium") ∧
    (40/100 ≤ c → c < 60/100 → get_level c = "low") ∧
    (c < 40/100 → get_level c = "insufficient") := by
  unfold get_level THRESHOLD_HIGH THRESHOLD_MEDIUM THRESHOLD_LOW
  refine ⟨fun h1 => ?_, fun h1 h2 => ?_, fun h1 h2 => ?_, fun h1 => ?_⟩ <;>
    split_ifs <;> first | rfl | linarith

/-- Witness for C7: the boundary values 0.80, 0.60, 0.40 fall in the
higher band, and 0.30 is insufficient. -/
theorem C7_get_level_bands_witness :
    get_level (80/100) = "high" ∧ get_level (60/100) = "medium" ∧
    get_level (40/100) = "low" ∧ get_level (30/100) = "insufficient" :=
  ⟨(C7_get_level_bands (80/100)).1 (by norm_num),
   (C7_get_level_bands (60/100)).2.1 (by norm_num) (by norm_num),
   (C7_get_level_bands (40/100)).2.2.1 (by norm_num) (by norm_num),
   (C7_get_level_bands (30/100)).2.2.2 (by norm_num)⟩

/-! ## Causal graph (`src/causal/graph.py`)

`CausalGraph` wraps a `networkx.DiGraph`.  The node dictionary is
modelled as an insertion-ordered association list `List (String ×
NodeData)` with unique keys, the edge dictionary as `List (String ×
String × EdgeAttrs)` keyed by the endpoint pair — exactly the
observable behaviour of the `networkx` dictionaries.  `add_node` on an
existing key overwrites the attributes in place (the `networkx`
behaviour used by the source). -/

/-- Embeds `NodeType` enumeration. -/
inductive NodeType where
  | symptom
  | diagnosis
  | treatment
  | outcome
  | evidence
  deriving DecidableEq, Repr

/-- Embeds `NodeType.value` — the string payload of the Python enum. -/
def NodeType.value : NodeType → String
  | .symptom => "symptom"
  | .diagnosis => "diagnosis"
  | .treatment => "treatment"
  | .outcome => "outcome"
  | .evidence => "evidence"

/-- Embeds `EdgeType` enumeration. -/
inductive EdgeType where
  | causes
  | treated_by
  | leads_to
  | supports
  deriving DecidableEq, Repr

/-- Embeds `EdgeType.value`. -/
def EdgeType.value : EdgeType → String
  | .causes => "causes"
  | .treated_by => "treated_by"
  | .leads_to => "leads_to"
  | .supports => "supports"

/-- Embeds `CausalStrength` enumeration. -/
inductive CausalStrength where
  | weak
  | moderate
  | strong
  deriving DecidableEq, Repr

/-- Embeds `CausalStrength.value`. -/
def CausalStrength.value : CausalStrength → String
  | .weak => "weak"
  | .moderate => "moderate"
  | .strong => "strong"

/-- Free-form string-keyed metadata dictionaries (the claims never
inspect their contents). -/
abbrev Metadata : Type := List (String × String)

/-- The attribute dictionary stored for a node, i.e. the image of
`CausalNode.to_dict` (`node_id`, `node_type.value`, `content`,
`confidence`, `metadata`, `timestamp.isoformat()`). -/
structure NodeData where
  node_id : String
  node_type : String
  content : String
  confidence : ℚ
  metadata : Metadata
  timestamp : String
  deriving DecidableEq, Repr

/-- The attribute dictionary stored for an edge.  `CausalEdge.to_dict`
includes redundant `source`/`target` keys, so attributes written by
`add_edge` carry `src = some source`/`tgt = some target`; attributes
rebuilt by `from_dict` (which pops those keys) carry `none`.  The
`Option` models the presence of the dictionary key. -/
structure EdgeAttrs where
  src : Option String
  tgt : Option String
  edge_type : String
  confidence : ℚ
  causal_strength : String
  evidence_refs : List String
  reasoning_type : String
  metadata : Metadata
  deriving DecidableEq, Repr

/-- The state of a `CausalGraph` instance. -/
structure CausalGraph where
  graph_id : String
  created_at : String
  metadata : Metadata
  nodes : List (String × NodeData)
  edges : List (String × String × EdgeAttrs)
  deriving DecidableEq, Repr

/-- Python-dict insertion on an association list: overwrite in place if
the key exists, else append. -/
def dictInsert {α : Type} (k : String) (v : α) : List (String × α) → List (String × α)
  | [] => [(k, v)]
  | (k', v') :: rest =>
    if k' = k then (k, v) :: rest else (k', v') :: dictInsert k v rest

/-- Edge-dictionary insertion keyed by the endpoint pair. -/
def edgeInsert (u v : String) (a : EdgeAttrs) :
    List (String × String × EdgeAttrs) → List (String × String × EdgeAttrs)
  | [] => [(u, v, a)]
  | (u', v', a') :: rest =>
    if u' = u ∧ v' = v then (u, v, a) :: rest
    else (u', v', a') :: edgeInsert u v a rest

/-- Embeds `node_id in self.graph.nodes`. -/
def has_node (g : CausalGraph) (node_id : String) : Bool :=
  g.nodes.any (fun p => p.1 == node_id)

/-- Embeds `CausalGraph._generate_node_id`.  `md5_8` abstracts
`hashlib.md5(...).hexdigest()[:8]`: any fixed function — the source
only relies on it being deterministic. -/
def generate_node_id (md5_8 : String → String) (content : String) (node_type : NodeType) :
    String :=
  node_type.value ++ "_" ++ md5_8 (node_type.value ++ ":" ++ content)

/-- Embeds `CausalGraph.add_node`.  `now` is the wall-clock timestamp the
Python code takes from `datetime.now`, passed explicitly. -/
def add_node (md5_8 : String → String) (g : CausalGraph) (content : String)
    (node_type : NodeType) (confidence : ℚ) (metadata : Metadata)
    (node_id : Option String) (now : String) : String × CausalGraph :=
  let nid := match node_id with
    | none => generate_node_id md5_8 content node_type
    | some i => i
  let node : NodeData :=
    { node_id := nid, node_type := node_type.value, content := content,
      confidence := confidence, metadata := metadata, timestamp := now }
  (nid, { g with nodes := dictInsert nid node g.nodes })

/-- Error raised by `CausalGraph.add_edge` on a missing endpoint.  The
Python code raises `ValueError`; the spec's taxonomy calls this
`ReferenceError`. -/
inductive GraphError where
  | referenceError : String → GraphError
  deriving DecidableEq, Repr

/-- Embeds `CausalGraph.add_edge`.  The second component of the result is the
graph after the call: unchanged when the call raises, since the raise
happens before the mutation. -/
def add_edge (g : CausalGraph) (source target : String) (edge_type : EdgeType)
    (confidence : ℚ) (causal_strength : CausalStrength) (evidence_refs : List String)
    (reasoning_type : String) (metadata : Metadata) :
    Except GraphError (String × String) × CausalGraph :=
  if has_node g source = false then
    (.error (.referenceError ("Source node " ++ source ++ " not in graph")), g)
  else if has_node g target = false then
    (.error (.referenceError ("Target node " ++ target ++ " not in graph")), g)
  else
    let attrs : EdgeAttrs :=
      { src := some source, tgt := some target, edge_type := edge_type.value,
        confidence := confidence, causal_strength := causal_strength.value,
        evidence_refs := evidence_refs, reasoning_type := reasoning_type,
        metadata := metadata }
    (.ok (source, target), { g with edges := edgeInsert source target attrs g.edges })

/-- Embeds `CausalGraph.get_node`: `None` when absent, else the attribute
dictionary. -/
def get_node (g : CausalGraph) (node_id : String) : Option NodeData :=
  match g.nodes.find? (fun p => p.1 == node_id) with
  | some p => some p.2
  | none => none

/-- Embeds `CausalGraph.find_nodes_by_type`. -/
def find_nodes_by_type (g : CausalGraph) (t : NodeType) : List String :=
  (g.nodes.filter (fun p => p.2.node_type == t.value)).map Prod.fst

/-- Embeds `self.graph.number_of_nodes()`. -/
def number_of_nodes (g : CausalGraph) : Nat := g.nodes.length

/-- Embeds `self.graph.number_of_edges()`. -/
def number_of_edges (g : CausalGraph) : Nat := g.edges.length

/-- A serialized node: `{"id": node_id, **data}`; `from_dict` pops
`"id"` back off, leaving `attrs`. -/
structure NodeDoc where
  id : String
  attrs : NodeData
  deriving DecidableEq, Repr

/-- A serialized edge: `{"source": u, "target": v, **data}`.  When the
attribute dictionary itself carries `source`/`target` keys (edges made
by `add_edge`), the `**data` values win in the Python dict literal. -/
structure EdgeDoc where
  source : String
  target : String
  edge_type : String
  confidence : ℚ
  causal_strength : String
  evidence_refs : List String
  reasoning_type : String
  metadata : Metadata
  deriving DecidableEq, Repr

/-- The document produced by `CausalGraph.to_dict`. -/
structure GraphDoc where
  graph_id : String
  created_at : String
  metadata : Metadata
  nodes : List NodeDoc
  edges : List EdgeDoc
  deriving DecidableEq, Repr

/-- Embeds `CausalGraph.to_dict`. -/
def to_dict (g : CausalGraph) : GraphDoc :=
  { graph_id := g.graph_id, created_at := g.created_at, metadata := g.metadata,
    nodes := g.nodes.map (fun p => { id := p.1, attrs := p.2 }),
    edges := g.edges.map (fun e =>
      { source := e.2.2.src.getD e.1,
        target := e.2.2.tgt.getD e.2.1,
        edge_type := e.2.2.edge_type, confidence := e.2.2.confidence,
        causal_strength := e.2.2.causal_strength,
        evidence_refs := e.2.2.evidence_refs,
        reasoning_type := e.2.2.reasoning_type, metadata := e.2.2.metadata }) }

/-- Embeds `CausalGraph.from_dict`: rebuilds a graph by re-inserting every
node (popping `"id"`) and every edge (popping `"source"`/`"target"`,
hence `src = tgt = none` in the rebuilt attributes).  Serialized
documents always list every edge endpoint among their nodes (a
`networkx` invariant), so re-inserting edges never creates nodes. -/
def from_dict (doc : GraphDoc) : CausalGraph :=
  { graph_id := doc.graph_id, created_at := doc.created_at, metadata := doc.metadata,
    nodes := doc.nodes.foldl (fun ns nd => dictInsert nd.id nd.attrs ns) [],
    edges := doc.edges.foldl (fun es ed =>
      edgeInsert ed.source ed.target
        { src := none, tgt := none, edge_type := ed.edge_type,
          confidence := ed.confidence, causal_strength := ed.causal_strength,
          evidence_refs := ed.evidence_refs, reasoning_type := ed.reasoning_type,
          metadata := ed.metadata } es) [] }

/-! ### Association-list lemmas -/

theorem dictInsert_of_not_mem {α : Type} (k : String) (v : α) (l : List (String × α))
    (h : k ∉ l.map Prod.fst) : dictInsert k v l = l ++ [(k, v)] := by
  induction l with
  | nil => rfl
  | cons p rest ih =>
    cases p with
    | mk k' v' =>
      simp only [List.map_cons, List.mem_cons, not_or] at h
      have hk : ¬ k' = k := fun he => h.1 he.symm
      simp only [dictInsert, if_neg hk, List.cons_append]
      rw [ih h.2]

theorem mem_keys_dictInsert {α : Type} (k : String) (v : α) (l : List (String × α)) :
    k ∈ (dictInsert k v l).map Prod.fst := by
  induction l with
  | nil => simp [dictInsert]
  | cons p rest ih =>
    cases p with
    | mk k' v' =>
      by_cases hk : k' = k
      · simp [dictInsert, hk]
      · simp only [dictInsert, if_neg hk, List.map_cons, List.mem_cons]
        exact Or.inr ih

theorem length_dictInsert_of_mem {α : Type} (k : String) (v : α) (l : List (String × α))
    (h : k ∈ l.map Prod.fst) : (dictInsert k v l).length = l.length := by
  induction l with
  | nil => simp at h
  | cons p rest ih =>
    cases p with
    | mk k' v' =>
      by_cases hk : k' = k
      · simp [dictInsert, hk]
      · have h' : k ∈ rest.map Prod.fst := by
          simp only [List.map_cons, List.mem_cons] at h
          rcases h with h | h
          · exact absurd h.symm hk
          · exact h
        simp [dictInsert, hk, ih h']

theorem find?_dictInsert_self {α : Type} (k : String) (v : α) (l : List (String × α)) :
    (dictInsert k v l).find? (fun p => p.1 == k) = some (k, v) := by
  induction l with
  | nil => simp [dictInsert, List.find?]
  | cons p rest ih =>
    cases p with
    | mk k' v' =>
      by_cases hk : k' = k
      · simp [dictInsert, hk, List.find?]
      · simp only [dictInsert, if_neg hk]
        rw [List.find?_cons_of_neg]
        · exact ih
        · simp [hk]

/-- C2: adding an edge whose source or target node id is absent fails
with a `ReferenceError` (a Python `ValueError`) and leaves the graph —
in particular its node and edge counts — unchanged. -/
theorem C2_add_edge_missing_endpoint (g : CausalGraph) (source target : String)
    (edge_type : EdgeType) (confidence : ℚ) (causal_strength : CausalStrength)
    (evidence_refs : List String) (reasoning_type : String) (metadata : Metadata)
    (h : has_node g source = false ∨ has_node g target = false) :
    (∃ msg,
      (add_edge g source target edge_type confidence causal_strength evidence_refs
        reasoning_type metadata).1 = .error (.referenceError msg)) ∧
    (add_edge g source target edge_type confidence causal_strength evidence_refs
        reasoning_type metadata).2 = g ∧
    number_of_nodes (add_edge g source target edge_type confidence causal_strength
        evidence_refs reasoning_type metadata).2 = number_of_nodes g ∧
    number_of_edges (add_edge g source target edge_type confidence causal_strength
        evidence_refs reasoning_type metadata).2 = number_of_edges g := by
  by_cases hs : has_node g source = false
  · have hred : add_edge g source target edge_type confidence causal_strength
        evidence_refs reasoning_type metadata =
        (.error (.referenceError ("Source node " ++ source ++ " not in graph")), g) := by
      simp only [add_edge, if_pos hs]
    rw [hred]
    exact ⟨⟨_, rfl⟩, rfl, rfl, rfl⟩
  · have ht : has_node g target = false := h.resolve_left hs
    have hred : add_edge g source target edge_type confidence causal_strength
        evidence_refs reasoning_type metadata =
        (.error (.referenceError ("Target node " ++ target ++ " not in graph")), g) := by
      simp only [add_edge, if_neg hs, if_pos ht]
    rw [hred]
    exact ⟨⟨_, rfl⟩, rfl, rfl, rfl⟩

/-- The empty graph (a fresh `CausalGraph()` with its generated id and
timestamp fixed). -/
def emptyGraph : CausalGraph :=
  { graph_id := "g0", created_at := "t0", metadata := [], nodes := [], edges := [] }

/-- Witness for C2: adding an edge between two ids absent from the
empty graph fails with a `ReferenceError` and changes nothing. -/
theorem C2_add_edge_missing_endpoint_witness :
    ((add_edge emptyGraph "a" "b" .causes (1/2) .moderate [] "symbolic" []).1.toOption =
      none) ∧
    (add_edge emptyGraph "a" "b" .causes (1/2) .moderate [] "symbolic" []).2 = emptyGraph ∧
    number_of_nodes (add_edge emptyGraph "a" "b" .causes (1/2) .moderate [] "symbolic" []).2 =
      number_of_nodes emptyGraph ∧
    number_of_edges (add_edge emptyGraph "a" "b" .causes (1/2) .moderate [] "symbolic" []).2 =
      number_of_edges emptyGraph := by
  obtain ⟨⟨msg, hmsg⟩, h2, h3, h4⟩ :=
    C2_add_edge_missing_endpoint emptyGraph "a" "b" .causes (1/2) .moderate [] "symbolic" []
      (Or.inl (by decide))
  exact ⟨by rw [hmsg]; rfl, h2, h3, h4⟩

/-- C10: calling `add_node` twice with the same content and type (and
no explicit id) returns the same content-addressed node id both times
and leaves the node count unchanged, while the second call silently
overwrites the stored attributes (confidence, metadata, timestamp) with
the new values — last write wins. -/
theorem C10_add_node_last_write_wins (md5_8 : String → String) (g : CausalGraph)
    (content : String) (node_type : NodeType) (c1 c2 : ℚ) (m1 m2 : Metadata)
    (now1 now2 : String) :
    (add_node md5_8 (add_node md5_8 g content node_type c1 m1 none now1).2
        content node_type c2 m2 none now2).1 =
      (add_node md5_8 g content node_type c1 m1 none now1).1 ∧
    number_of_nodes (add_node md5_8 (add_node md5_8 g content node_type c1 m1 none now1).2
        content node_type c2 m2 none now2).2 =
      number_of_nodes (add_node md5_8 g content node_type c1 m1 none now1).2 ∧
    get_node (add_node md5_8 g content node_type c1 m1 none now1).2
        (add_node md5_8 g content node_type c1 m1 none now1).1 =
      some { node_id := generate_node_id md5_8 content node_type,
             node_type := node_type.value, content := content, confidence := c1,
             metadata := m1, timestamp := now1 } ∧
    get_node (add_node md5_8 (add_node md5_8 g content node_type c1 m1 none now1).2
        content node_type c2 m2 none now2).2
        (add_node md5_8 g content node_type c1 m1 none now1).1 =
      some { node_id := generate_node_id md5_8 content node_type,
             node_type := node_type.value, content := content, confidence := c2,
             metadata := m2, timestamp := now2 } := by
  refine ⟨rfl, ?_, ?_, ?_⟩
  · apply length_dictInsert_of_mem
    exact mem_keys_dictInsert _ _ _
  · simp only [add_node, get_node, find?_dictInsert_self]
  · simp only [add_node, get_node, find?_dictInsert_self]

/-! ### Serialization round trip (C5) -/

theorem edgeInsert_of_not_mem (u v : String) (a : EdgeAttrs)
    (l : List (String × String × EdgeAttrs))
    (h : (u, v) ∉ l.map (fun e => (e.1, e.2.1))) :
    edgeInsert u v a l = l ++ [(u, v, a)] := by
  induction l with
  | nil => rfl
  | cons e rest ih =>
    obtain ⟨u', v', a'⟩ := e
    simp only [List.map_cons, List.mem_cons, not_or, Prod.mk.injEq] at h
    have hk : ¬ (u' = u ∧ v' = v) := by
      intro ⟨h1, h2⟩
      exact h.1 ⟨h1.symm, h2.symm⟩
    simp only [edgeInsert, if_neg hk, List.cons_append]
    rw [ih h.2]

theorem foldl_dictInsert_eq_append {α : Type} (l : List (String × α)) :
    ∀ acc : List (String × α), (l.map Prod.fst).Nodup →
    (∀ k ∈ l.map Prod.fst, k ∉ acc.map Prod.fst) →
    l.foldl (fun ns p => dictInsert p.1 p.2 ns) acc = acc ++ l := by
  induction l with
  | nil => intro acc _ _; simp
  | cons p rest ih =>
    intro acc hnd hdisj
    have hnotacc : p.1 ∉ acc.map Prod.fst := hdisj p.1 (by simp)
    simp only [List.foldl_cons]
    rw [dictInsert_of_not_mem p.1 p.2 acc hnotacc]
    have hnd' : (rest.map Prod.fst).Nodup := by
      simp only [List.map_cons, List.nodup_cons] at hnd
      exact hnd.2
    have hhead : p.1 ∉ rest.map Prod.fst := by
      simp only [List.map_cons, List.nodup_cons] at hnd
      exact hnd.1
    have hdisj' : ∀ k ∈ rest.map Prod.fst, k ∉ (acc ++ [(p.1, p.2)]).map Prod.fst := by
      intro k hk
      simp only [List.map_append, List.mem_append, List.map_cons, List.map_nil,
        List.mem_singleton, not_or]
      refine ⟨hdisj k (by simp [hk]), ?_⟩
      intro he
      exact hhead (he ▸ hk)
    rw [ih (acc ++ [(p.1, p.2)]) hnd' hdisj']
    simp

/-- The edge as rebuilt by `from_dict`: same endpoints and payload, but
without the redundant `source`/`target` attribute keys. -/
def stripEdge (e : String × String × EdgeAttrs) : String × String × EdgeAttrs :=
  (e.1, e.2.1,
    { src := none, tgt := none, edge_type := e.2.2.edge_type,
      confidence := e.2.2.confidence, causal_strength := e.2.2.causal_strength,
      evidence_refs := e.2.2.evidence_refs, reasoning_type := e.2.2.reasoning_type,
      metadata := e.2.2.metadata })

theorem foldl_edge_roundtrip (l : List (String × String × EdgeAttrs)) :
    ∀ acc : List (String × String × EdgeAttrs),
    (∀ e ∈ l, (e.2.2.src = none ∨ e.2.2.src = some e.1) ∧
              (e.2.2.tgt = none ∨ e.2.2.tgt = some e.2.1)) →
    (l.map (fun e => (e.1, e.2.1))).Nodup →
    (∀ e ∈ l, (e.1, e.2.1) ∉ acc.map (fun e' => (e'.1, e'.2.1))) →
    l.foldl (fun es e =>
      edgeInsert (e.2.2.src.getD e.1) (e.2.2.tgt.getD e.2.1)
        { src := none, tgt := none, edge_type := e.2.2.edge_type,
          confidence := e.2.2.confidence, causal_strength := e.2.2.causal_strength,
          evidence_refs := e.2.2.evidence_refs, reasoning_type := e.2.2.reasoning_type,
          metadata := e.2.2.metadata } es) acc = acc ++ l.map stripEdge := by
  induction l with
  | nil => intro acc _ _ _; simp
  | cons e rest ih =>
    intro acc hwf hnd hdisj
    have hsrc : e.2.2.src.getD e.1 = e.1 := by
      rcases (hwf e (by simp)).1 with h | h <;> simp [h]
    have htgt : e.2.2.tgt.getD e.2.1 = e.2.1 := by
      rcases (hwf e (by simp)).2 with h | h <;> simp [h]
    have hnotacc : (e.1, e.2.1) ∉ acc.map (fun e' => (e'.1, e'.2.1)) :=
      hdisj e (by simp)
    simp only [List.foldl_cons, hsrc, htgt]
    rw [edgeInsert_of_not_mem _ _ _ acc hnotacc]
    have hnd' : (rest.map (fun e' => (e'.1, e'.2.1))).Nodup := by
      simp only [List.map_cons, List.nodup_cons] at hnd
      exact hnd.2
    have hhead : (e.1, e.2.1) ∉ rest.map (fun e' => (e'.1, e'.2.1)) := by
      simp only [List.map_cons, List.nodup_cons] at hnd
      exact hnd.1
    have hdisj' : ∀ a0 : EdgeAttrs, ∀ e' ∈ rest, (e'.1, e'.2.1) ∉
        ((acc ++ [(e.1, e.2.1, a0)]).map
          (fun e'' : String × String × EdgeAttrs => (e''.1, e''.2.1))) := by
      intro a0 e' he'
      simp only [List.map_append, List.mem_append, List.map_cons, List.map_nil,
        List.mem_singleton, not_or]
      refine ⟨hdisj e' (by simp [he']), ?_⟩
      intro he
      apply hhead
      rw [← he]
      exact List.mem_map_of_mem _ he'
    rw [ih (acc ++ [_]) (fun e' he' => hwf e' (by simp [he'])) hnd' (hdisj' _)]
    simp [stripEdge]

/-- The observable content of an edge: its endpoints and every
non-redundant attribute field. -/
def obsEdge (e : String × String × EdgeAttrs) :
    String × String × String × ℚ × String × List String × String × Metadata :=
  (e.1, e.2.1, e.2.2.edge_type, e.2.2.confidence, e.2.2.causal_strength,
   e.2.2.evidence_refs, e.2.2.reasoning_type, e.2.2.metadata)

/-- Representation invariant every `networkx`-backed graph satisfies:
node keys are unique, edge endpoint pairs are unique, the redundant
`source`/`target` attribute keys (when present) agree with the
endpoints, and every edge endpoint is a node of the graph. -/
def WellFormedGraph (g : CausalGraph) : Prop :=
  (g.nodes.map Prod.fst).Nodup ∧
  (g.edges.map (fun e => (e.1, e.2.1))).Nodup ∧
  (∀ e ∈ g.edges, (e.2.2.src = none ∨ e.2.2.src = some e.1) ∧
                  (e.2.2.tgt = none ∨ e.2.2.tgt = some e.2.1)) ∧
  (∀ e ∈ g.edges, e.1 ∈ g.nodes.map Prod.fst ∧ e.2.1 ∈ g.nodes.map Prod.fst)

/-- C5: serializing a graph with `to_dict` and deserializing with
`from_dict` reproduces an equivalent graph: the same `graph_id`,
`created_at` and graph metadata, the identical node list with all node
fields, and the same edge list with the same endpoints and all edge
fields (the only representational difference being that the rebuilt
attribute dictionaries no longer carry the redundant `source`/`target`
keys). -/
theorem C5_serialization_round_trip (g : CausalGraph) (h : WellFormedGraph g) :
    (from_dict (to_dict g)).graph_id = g.graph_id ∧
    (from_dict (to_dict g)).created_at = g.created_at ∧
    (from_dict (to_dict g)).metadata = g.metadata ∧
    (from_dict (to_dict g)).nodes = g.nodes ∧
    (from_dict (to_dict g)).edges.map obsEdge = g.edges.map obsEdge := by
  obtain ⟨hnodes, hedges, hwf, -⟩ := h
  refine ⟨rfl, rfl, rfl, ?_, ?_⟩
  · show ((g.nodes.map (fun p => ({ id := p.1, attrs := p.2 } : NodeDoc))).foldl
      (fun ns nd => dictInsert nd.id nd.attrs ns) []) = g.nodes
    rw [List.foldl_map]
    exact foldl_dictInsert_eq_append g.nodes [] hnodes (by simp)
  · show ((g.edges.map (fun e =>
      ({ source := e.2.2.src.getD e.1, target := e.2.2.tgt.getD e.2.1,
         edge_type := e.2.2.edge_type, confidence := e.2.2.confidence,
         causal_strength := e.2.2.causal_strength,
         evidence_refs := e.2.2.evidence_refs,
         reasoning_type := e.2.2.reasoning_type,
         metadata := e.2.2.metadata } : EdgeDoc))).foldl
      (fun es ed => edgeInsert ed.source ed.target
        { src := none, tgt := none, edge_type := ed.edge_type,
          confidence := ed.confidence, causal_strength := ed.causal_strength,
          evidence_refs := ed.evidence_refs, reasoning_type := ed.reasoning_type,
          metadata := ed.metadata } es) []).map obsEdge = g.edges.map obsEdge
    rw [List.foldl_map]
    rw [foldl_edge_roundtrip g.edges [] hwf hedges (by simp)]
    simp only [List.nil_append, List.map_map]
    rfl

/-- A concrete well-formed graph (one symptom, one diagnosis, one
`causes` edge, as built by `add_node`/`add_edge`). -/
def roundTripGraph : CausalGraph :=
  { graph_id := "g1", created_at := "t1", metadata := [("case", "42")],
    nodes :=
      [("symptom_aaaa",
        { node_id := "symptom_aaaa", node_type := "symptom", content := "fever",
          confidence := 85/100, metadata := [], timestamp := "t1" }),
       ("diagnosis_bbbb",
        { node_id := "diagnosis_bbbb", node_type := "diagnosis", content := "pneumonia",
          confidence := 80/100, metadata := [], timestamp := "t1" })],
    edges :=
      [("symptom_aaaa", "diagnosis_bbbb",
        { src := some "symptom_aaaa", tgt := some "diagnosis_bbbb",
          edge_type := "causes", confidence := 85/100, causal_strength := "strong",
          evidence_refs := [], reasoning_type := "symbolic", metadata := [] })] }

/-- Witness for C5: the round trip on `roundTripGraph`. -/
theorem C5_serialization_round_trip_witness :
    (from_dict (to_dict roundTripGraph)).graph_id = roundTripGraph.graph_id ∧
    (from_dict (to_dict roundTripGraph)).created_at = roundTripGraph.created_at ∧
    (from_dict (to_dict roundTripGraph)).metadata = roundTripGraph.metadata ∧
    (from_dict (to_dict roundTripGraph)).nodes = roundTripGraph.nodes ∧
    (from_dict (to_dict roundTripGraph)).edges.map obsEdge =
      roundTripGraph.edges.map obsEdge :=
  C5_serialization_round_trip roundTripGraph
    (by refine ⟨by decide, by decide, ?_, ?_⟩ <;> decide)

/-! ## Bias detector (`src/causal/bias_detector.py`) -/

/-- A loosely-typed Python metadata value (string or integer), enough
for the case metadata the bias detector reads. -/
inductive PyVal where
  | str : String → PyVal
  | int : Int → PyVal
  deriving DecidableEq, Repr

/-- Python `str(v)`. -/
def pyStr : PyVal → String
  | .str s => s
  | .int n => toString n

/-- Python `int(v)`: identity on integers, integer-string parsing on
strings, `none` for the `ValueError` raised on a non-numeric string. -/
def pyInt : PyVal → Option Int
  | .int n => some n
  | .str s => s.toInt?

/-- The `input_metadata` dictionary about the patient/case. -/
abbrev CaseMetadata : Type := List (String × PyVal)

/-- Embeds `metadata.get(k, "")`. -/
def metaGet (md : CaseMetadata) (k : String) : PyVal :=
  match md.find? (fun p => p.1 == k) with
  | some p => p.2
  | none => .str ""

/-- Embeds `k in metadata`. -/
def hasKey (md : CaseMetadata) (k : String) : Bool :=
  md.any (fun p => p.1 == k)

/-- Python `s.lower()` (character-wise case folding, as used on the
source's keyword strings). -/
def strLower (s : String) : String := ⟨s.data.map Char.toLower⟩

/-- Python `needle in hay` on strings (substring containment). -/
def isSubstr (needle hay : String) : Bool :=
  decide (needle.toList <:+: hay.toList)

/-- Embeds `BiasDetector.SENSITIVE_ATTRIBUTES`. -/
def SENSITIVE_ATTRIBUTES : List String :=
  ["age", "gender", "sex", "race", "ethnicity", "socioeconomic_status"]

/-- The dictionary returned by `BiasDetector._check_demographic_usage`. -/
structure DemographicUsage where
  used_explicitly : Bool
  used_attributes : List String
  impact_score : ℚ
  deriving DecidableEq, Repr

/-- Embeds `BiasDetector._check_demographic_usage`: scan every node's
lowercased content for occurrences of the (lowercased, stringified)
values of the sensitive attributes present in the case metadata.
`used_attributes` models the Python `list(set(...))` by `eraseDups`
(the Python set order is unspecified; one fixed order is chosen here). -/
def check_demographic_usage (g : CausalGraph) (metadata : CaseMetadata) :
    DemographicUsage :=
  let acc := g.nodes.foldl (fun acc p =>
    let content := strLower p.2.content
    SENSITIVE_ATTRIBUTES.foldl (fun acc attr =>
      let attr_val := strLower (pyStr (metaGet metadata attr))
      if attr_val ≠ "" ∧ isSubstr attr_val content = true then
        (true, acc.2.1 ++ [attr], max acc.2.2 p.2.confidence)
      else acc) acc) ((false, [], 0) : Bool × List String × ℚ)
  { used_explicitly := acc.1, used_attributes := acc.2.1.eraseDups,
    impact_score := acc.2.2 }

/-- Embeds `BiasDetector._check_premature_closure`: a diagnosis node with
confidence above 0.8 while fewer than 2 evidence nodes exist. -/
def check_premature_closure (g : CausalGraph) : Bool :=
  let evidence_nodes := find_nodes_by_type g NodeType.evidence
  let diagnosis_nodes := find_nodes_by_type g NodeType.diagnosis
  if diagnosis_nodes = [] then false
  else
    let max_diag_conf := diagnosis_nodes.foldl (fun m nid =>
      match get_node g nid with
      | some node => max m node.confidence
      | none => m) (0 : ℚ)
    decide (8/10 < max_diag_conf) && decide (evidence_nodes.length < 2)

/-- One counterfactual suggestion dictionary. -/
structure Counterfactual where
  attribute_key : String
  original : PyVal
  counterfactual : PyVal
  deriving DecidableEq, Repr

/-- Error from `BiasDetector.check_graph`: only `int(metadata["age"])`
can raise (a Python `ValueError` on a non-numeric age value). -/
inductive BiasError where
  | valueError : String → BiasError
  deriving DecidableEq, Repr

/-- Embeds `BiasDetector._generate_counterfactual_suggestions`. -/
def generate_counterfactual_suggestions (metadata : CaseMetadata) :
    Except BiasError (List Counterfactual) :=
  let l1 : List Counterfactual :=
    if hasKey metadata "gender" = true then
      let curr := strLower (pyStr (metaGet metadata "gender"))
      if curr = "male" ∨ curr = "m" then
        [{ attribute_key := "gender", original := .str curr, counterfactual := .str "female" }]
      else if curr = "female" ∨ curr = "f" then
        [{ attribute_key := "gender", original := .str curr, counterfactual := .str "male" }]
      else []
    else []
  if hasKey metadata "age" = true then
    match pyInt (metaGet metadata "age") with
    | none => .error (.valueError "invalid literal for int() with base 10")
    | some curr_age =>
      .ok (l1 ++
        (if curr_age < 18 then
          [{ attribute_key := "age", original := .int curr_age, counterfactual := .int 35 }]
        else if 65 < curr_age then
          [{ attribute_key := "age", original := .int curr_age, counterfactual := .int 45 }]
        else []))
  else .ok l1

/-- The `details` dictionary of a `BiasReport`: `demographic_usage` is
present exactly when demographics were used; `premature_closure` is
present (and `True`) exactly when the premature-closure check fired. -/
structure BiasDetails where
  demographic_usage : Option DemographicUsage
  premature_closure : Bool
  deriving DecidableEq, Repr

/-- Embeds `BiasReport` dataclass. -/
structure BiasReport where
  has_bias : Bool
  bias_score : ℚ
  detected_types : List String
  details : BiasDetails
  counterfactuals : List Counterfactual
  recommendations : List String
  deriving DecidableEq, Repr

/-- Embeds `BiasDetector.check_graph`. -/
def check_graph (g : CausalGraph) (input_metadata : CaseMetadata) :
    Except BiasError BiasReport :=
  let du := check_demographic_usage g input_metadata
  let details_du : Option DemographicUsage :=
    if du.used_explicitly = true then some du else none
  let flag_du : Bool := du.used_explicitly && decide (7/10 < du.impact_score)
  let detected1 : List String :=
    if flag_du = true then ["high_demographic_impact"] else []
  let recs1 : List String :=
    if flag_du = true then ["Verify demographic factors are clinically relevant"] else []
  let pc := check_premature_closure g
  let detected2 : List String := if pc = true then ["premature_closure"] else []
  let recs2 : List String :=
    if pc = true then ["Consider alternative diagnoses (premature closure detected)"] else []
  match generate_counterfactual_suggestions input_metadata with
  | .error e => .error e
  | .ok counterfactuals =>
    let detected_types := detected1 ++ detected2
    let has_bias : Bool := decide (0 < detected_types.length)
    let bias_score : ℚ :=
      if has_bias = true then 1/2 + 1/10 * (detected_types.length : ℚ) else 0
    .ok { has_bias := has_bias, bias_score := min 1 bias_score,
          detected_types := detected_types,
          details := { demographic_usage := details_du, premature_closure := pc },
          counterfactuals := counterfactuals, recommendations := recs1 ++ recs2 }

/-! ### Lemmas for the premature-closure heuristic -/

theorem find?_eq_of_nodup (l : List (String × NodeData))
    (hnd : (l.map Prod.fst).Nodup) (p : String × NodeData) (hp : p ∈ l) :
    l.find? (fun q => q.1 == p.1) = some p := by
  induction l with
  | nil => simp at hp
  | cons q rest ih =>
    simp only [List.map_cons, List.nodup_cons] at hnd
    rcases List.mem_cons.mp hp with rfl | hp'
    · simp [List.find?]
    · have hne : (q.1 == p.1) = false := by
        rw [beq_eq_false_iff_ne]
        intro he
        exact hnd.1 (he ▸ List.mem_map_of_mem Prod.fst hp')
      simp only [List.find?, hne]
      exact ih hnd.2 hp'

theorem get_node_of_mem (g : CausalGraph) (hnd : (g.nodes.map Prod.fst).Nodup)
    (p : String × NodeData) (hp : p ∈ g.nodes) : get_node g p.1 = some p.2 := by
  rw [get_node, find?_eq_of_nodup g.nodes hnd p hp]

theorem foldl_conf_eq (g : CausalGraph) (l : List (String × NodeData)) :
    (∀ p ∈ l, get_node g p.1 = some p.2) →
    ∀ m : ℚ, (l.map Prod.fst).foldl (fun m nid =>
        match get_node g nid with
        | some node => max m node.confidence
        | none => m) m =
      l.foldl (fun m p => max m p.2.confidence) m := by
  induction l with
  | nil => intro _ m; rfl
  | cons p rest ih =>
    intro hsub m
    simp only [List.map_cons, List.foldl_cons, hsub p (by simp)]
    exact ih (fun q hq => hsub q (by simp [hq])) _

theorem lt_foldl_max (t : ℚ) (l : List (String × NodeData)) :
    ∀ m : ℚ, (t < l.foldl (fun m p => max m p.2.confidence) m ↔
      t < m ∨ ∃ p ∈ l, t < p.2.confidence) := by
  induction l with
  | nil => intro m; simp
  | cons x xs ih =>
    intro m
    rw [List.foldl_cons, ih]
    constructor
    · rintro (h | h)
      · rcases lt_max_iff.mp h with h' | h'
        · exact Or.inl h'
        · exact Or.inr ⟨x, by simp, h'⟩
      · rcases h with ⟨y, hy, hty⟩
        exact Or.inr ⟨y, by simp [hy], hty⟩
    · rintro (h | ⟨y, hy, hty⟩)
      · exact Or.inl (lt_max_iff.mpr (Or.inl h))
      · rcases List.mem_cons.mp hy with rfl | hy'
        · exact Or.inl (lt_max_iff.mpr (Or.inr hty))
        · exact Or.inr ⟨y, hy', hty⟩

set_option maxHeartbeats 1000000 in
theorem check_premature_closure_iff (g : CausalGraph)
    (hnd : (g.nodes.map Prod.fst).Nodup) :
    check_premature_closure g = true ↔
      ((∃ p ∈ g.nodes, p.2.node_type = "diagnosis" ∧ 8/10 < p.2.confidence) ∧
       (g.nodes.filter (fun p => p.2.node_type == "evidence")).length < 2) := by
  have hEv : find_nodes_by_type g NodeType.evidence =
      (g.nodes.filter (fun p => p.2.node_type == "evidence")).map Prod.fst := rfl
  have hDi : find_nodes_by_type g NodeType.diagnosis =
      (g.nodes.filter (fun p => p.2.node_type == "diagnosis")).map Prod.fst := rfl
  rw [check_premature_closure, hEv, hDi]
  by_cases hD : g.nodes.filter (fun p => p.2.node_type == "diagnosis") = []
  · rw [hD]
    simp only [List.map_nil, if_pos rfl]
    constructor
    · intro h
      exact absurd h (by simp)
    · rintro ⟨⟨p, hp, htype, hconf⟩, -⟩
      exfalso
      have hmem : p ∈ g.nodes.filter (fun q => q.2.node_type == "diagnosis") :=
        List.mem_filter.mpr ⟨hp, by simp [htype]⟩
      rw [hD] at hmem
      simp at hmem
  · have hmapne : (g.nodes.filter (fun p => p.2.node_type == "diagnosis")).map Prod.fst ≠ [] := by
      simp only [ne_eq, List.map_eq_nil_iff]
      exact hD
    rw [if_neg hmapne]
    have hsub : ∀ p ∈ g.nodes.filter (fun q => q.2.node_type == "diagnosis"),
        get_node g p.1 = some p.2 := by
      intro p hp
      exact get_node_of_mem g hnd p (List.mem_filter.mp hp).1
    simp only [Bool.and_eq_true, decide_eq_true_eq, List.length_map]
    rw [foldl_conf_eq g _ hsub 0]
    constructor
    · rintro ⟨hmax, hlen⟩
      have h8 : ¬ ((8:ℚ)/10 < 0) := by norm_num
      rcases (lt_foldl_max (8/10) _ 0).mp hmax with h | ⟨p, hp, hc⟩
      · exact absurd h h8
      · obtain ⟨hpg, htype⟩ := List.mem_filter.mp hp
        exact ⟨⟨p, hpg, by simpa using htype, hc⟩, hlen⟩
    · rintro ⟨⟨p, hp, htype, hconf⟩, hlen⟩
      refine ⟨?_, hlen⟩
      apply (lt_foldl_max (8/10) _ 0).mpr
      exact Or.inr ⟨p, List.mem_filter.mpr ⟨hp, by simp [htype]⟩, hconf⟩

/-- C6: `check_graph` reports `premature_closure` among
`detected_types` exactly when some diagnosis node has confidence above
0.8 while fewer than 2 evidence nodes exist; the report satisfies
`has_bias = (|detected_types| > 0)` and `bias_score = min 1 (0.5 +
0.1·|detected_types|)` when biased, else 0. -/
theorem C6_check_graph_bias_report (g : CausalGraph) (md : CaseMetadata)
    (r : BiasReport) (hnd : (g.nodes.map Prod.fst).Nodup)
    (h : check_graph g md = .ok r) :
    ("premature_closure" ∈ r.detected_types ↔
      ((∃ p ∈ g.nodes, p.2.node_type = "diagnosis" ∧ 8/10 < p.2.confidence) ∧
       (g.nodes.filter (fun p => p.2.node_type == "evidence")).length < 2)) ∧
    (r.has_bias = true ↔ r.detected_types ≠ []) ∧
    r.bias_score = (if 0 < r.detected_types.length then
        min 1 (1/2 + 1/10 * (r.detected_types.length : ℚ)) else 0) := by
  rw [← check_premature_closure_iff g hnd]
  rcases hcf : generate_counterfactual_suggestions md with e | cf
  · rw [check_graph, hcf] at h
    exact absurd h (by simp)
  · rw [check_graph, hcf] at h
    cases hfd : (check_demographic_usage g md).used_explicitly &&
        decide (7/10 < (check_demographic_usage g md).impact_score) <;>
      cases hpc : check_premature_closure g <;>
        rw [hfd, hpc] at h <;>
          simp only [Bool.false_eq_true, if_false, if_true, List.nil_append,
            List.append_nil, Except.ok.injEq] at h <;>
            rw [← h] <;>
              refine ⟨?_, ?_, ?_⟩ <;> simp

/-- The spec's example graph: one diagnosis node at confidence 0.9 and
zero evidence nodes. -/
def biasGraph : CausalGraph :=
  { graph_id := "g2", created_at := "t2", metadata := [],
    nodes := [("diagnosis_cccc",
      { node_id := "diagnosis_cccc", node_type := "diagnosis", content := "pneumonia",
        confidence := 9/10, metadata := [], timestamp := "t2" })],
    edges := [] }

/-- The report `check_graph` produces on `biasGraph` with empty case
metadata. -/
def biasGraphReport : BiasReport :=
  { has_bias := true, bias_score := 3/5, detected_types := ["premature_closure"],
    details := { demographic_usage := none, premature_closure := true },
    counterfactuals := [],
    recommendations := ["Consider alternative diagnoses (premature closure detected)"] }

/-- Witness for C6: on `biasGraph` the report flags `premature_closure`
with `has_bias = true` and `bias_score = 0.5 + 0.1·1 = 0.6`. -/
theorem C6_check_graph_bias_report_witness :
    check_graph biasGraph [] = Except.ok biasGraphReport ∧
    "premature_closure" ∈ biasGraphReport.detected_types ∧
    biasGraphReport.has_bias = true ∧
    biasGraphReport.bias_score = 3/5 :=
  have hrhs : (∃ p ∈ biasGraph.nodes, p.2.node_type = "diagnosis" ∧ 8/10 < p.2.confidence) ∧
      (biasGraph.nodes.filter (fun p => p.2.node_type == "evidence")).length < 2 :=
    ⟨⟨_, List.mem_cons_self _ _, rfl, show (8:ℚ)/10 < 9/10 by norm_num⟩, by decide⟩
  have hpcb : check_premature_closure biasGraph = true :=
    (check_premature_closure_iff biasGraph (by decide)).mpr hrhs
  have hdu : check_demographic_usage biasGraph [] =
      { used_explicitly := false, used_attributes := [], impact_score := 0 } := rfl
  have hcf : generate_counterfactual_suggestions [] = .ok [] := rfl
  have hok : check_graph biasGraph [] = Except.ok biasGraphReport := by
    rw [check_graph, hdu, hpcb, hcf]
    simp [biasGraphReport]
    norm_num
  ⟨hok,
   ((C6_check_graph_bias_report biasGraph [] biasGraphReport (by decide) hok).1).mpr hrhs,
   ((C6_check_graph_bias_report biasGraph [] biasGraphReport (by decide) hok).2.1).mpr
     (by decide),
   rfl⟩

/-! ## Explainability vault (`src/storage/vault.py`)

The five SQLAlchemy tables are modelled as append-only lists of rows;
the autoincrementing primary key is modelled as one more than the row
count (rows are only ever appended, so ids are `1, 2, …` in insertion
order, as with SQLite).  `sha256` / the canonical-JSON content hash is
an abstract function parameter: the source only relies on it being a
deterministic function of the content. -/

/-- An `inputs` table row (`class Input`). -/
structure InputRecord where
  id : Nat
  source : String
  content : String
  content_hash : String
  meta_data : Metadata
  timestamp : String
  prev_hash : Option String
  deriving DecidableEq, Repr

/-- An `agent_executions` table row (`class AgentExecution`). -/
structure AgentExecutionRecord where
  id : Nat
  input_id : Nat
  agent_id : String
  agent_input : String
  agent_output : String
  tool_calls : List Metadata
  duration_ms : Option ℚ
  timestamp : String
  prev_hash : Option String
  deriving DecidableEq, Repr

/-- A `causal_steps` table row (`class CausalStep`). -/
structure CausalStepRecord where
  id : Nat
  execution_id : Nat
  premise : String
  conclusion : String
  confidence : ℚ
  evidence_refs : List String
  reasoning_type : String
  timestamp : String
  prev_hash : Option String
  deriving DecidableEq, Repr

/-- A `policy_checks` table row (`class PolicyCheck`). -/
structure PolicyCheckRecord where
  id : Nat
  execution_id : Nat
  policy_name : String
  result : String
  details : Metadata
  violations : List Metadata
  timestamp : String
  prev_hash : Option String
  deriving DecidableEq, Repr

/-- An `outputs` table row (`class Output`). -/
structure OutputRecord where
  id : Nat
  execution_id : Nat
  conclusion : String
  confidence : ℚ
  risk_flags : List String
  recommendations : List String
  timestamp : String
  prev_hash : Option String
  deriving DecidableEq, Repr

/-- The state of the vault database. -/
structure VaultState where
  inputs : List InputRecord
  agent_executions : List AgentExecutionRecord
  causal_steps : List CausalStepRecord
  policy_checks : List PolicyCheckRecord
  outputs : List OutputRecord
  deriving DecidableEq, Repr

/-- A freshly initialized vault (all tables empty). -/
def emptyVault : VaultState := ⟨[], [], [], [], []⟩

/-- Vault errors in the spec's taxonomy: `StorageError` is a
failed-and-rolled-back insert (here the SQLite `UNIQUE` violation on
`inputs.content_hash`, an `IntegrityError` in Python); `NotFoundError`
is the `ValueError` raised for an unknown execution id. -/
inductive VaultError where
  | storageError : String → VaultError
  | notFoundError : String → VaultError
  deriving DecidableEq, Repr

/-- Embeds `ExplainabilityVault._get_last_hash` specialised to the `inputs`
table: take the row with the greatest id
(`order_by(id.desc()).first()`) and return the `prev_hash` column
of that row — note the source returns `last_record.prev_hash`, not a hash of
`last_record`. -/
def get_last_hash_inputs (rows : List InputRecord) : Option String :=
  match rows.foldl (fun acc r =>
    match acc with
    | none => some r
    | some b => if b.id < r.id then some r else some b) none with
  | none => none
  | some last_record => last_record.prev_hash

/-- Embeds `ExplainabilityVault.log_input`.  `compute_hash` abstracts
`_compute_hash({"content": content})` (SHA-256 over the canonical
JSON); `now` is the row timestamp.  The insert enforces the `UNIQUE`
constraint on `inputs.content_hash`: a duplicate hash makes the commit
raise, the session roll back (tables unchanged — the second component
of the result is the state after the call), and the error propagate. -/
def log_input (compute_hash : String → String) (s : VaultState)
    (source content : String) (metadata : Metadata) (now : String) :
    Except VaultError Nat × VaultState :=
  let content_hash := compute_hash content
  let prev_hash := get_last_hash_inputs s.inputs
  if s.inputs.any (fun r => r.content_hash == content_hash) then
    (.error (.storageError "UNIQUE constraint failed: inputs.content_hash"), s)
  else
    let id := s.inputs.length + 1
    (.ok id,
     { s with inputs := s.inputs ++
         [{ id := id, source := source, content := content,
            content_hash := content_hash, meta_data := metadata,
            timestamp := now, prev_hash := prev_hash }] })

/-- One causal step of a reasoning trail, as formatted by
`get_reasoning_trail`. -/
structure TrailStep where
  premise : String
  conclusion : String
  confidence : ℚ
  evidence_refs : List String
  reasoning_type : String
  deriving DecidableEq, Repr

/-- One policy check of a reasoning trail. -/
structure TrailPolicyCheck where
  policy_name : String
  result : String
  details : Metadata
  violations : List Metadata
  deriving DecidableEq, Repr

/-- The output section of a reasoning trail. -/
structure TrailOutput where
  conclusion : String
  confidence : ℚ
  risk_flags : List String
  recommendations : List String
  deriving DecidableEq, Repr

/-- The trail dictionary returned by `get_reasoning_trail`. -/
structure Trail where
  execution_id : Nat
  agent_id : String
  agent_input : String
  agent_output : String
  tool_calls : List Metadata
  duration_ms : Option ℚ
  causal_steps : List TrailStep
  policy_checks : List TrailPolicyCheck
  output : Option TrailOutput
  deriving DecidableEq, Repr

/-- Embeds `ExplainabilityVault.get_reasoning_trail`: joins the execution row
with its causal steps, policy checks and output; raises `ValueError`
(spec taxonomy: `NotFoundError`) when no `AgentExecution` row carries
the id. -/
def get_reasoning_trail (s : VaultState) (execution_id : Nat) :
    Except VaultError Trail :=
  match s.agent_executions.find? (fun e => e.id == execution_id) with
  | none =>
    .error (.notFoundError ("Execution " ++ toString execution_id ++ " not found"))
  | some execution =>
    .ok { execution_id := execution_id, agent_id := execution.agent_id,
          agent_input := execution.agent_input,
          agent_output := execution.agent_output,
          tool_calls := execution.tool_calls,
          duration_ms := execution.duration_ms,
          causal_steps := (s.causal_steps.filter
            (fun st => st.execution_id == execution_id)).map (fun st =>
              { premise := st.premise, conclusion := st.conclusion,
                confidence := st.confidence, evidence_refs := st.evidence_refs,
                reasoning_type := st.reasoning_type }),
          policy_checks := (s.policy_checks.filter
            (fun c => c.execution_id == execution_id)).map (fun c =>
              { policy_name := c.policy_name, result := c.result,
                details := c.details, violations := c.violations }),
          output := (s.outputs.find?
            (fun o => o.execution_id == execution_id)).map (fun o =>
              { conclusion := o.conclusion, confidence := o.confidence,
                risk_flags := o.risk_flags,
                recommendations := o.recommendations }) }

/-- A concrete stand-in for the SHA-256 content hash, used to evaluate
the vault model on concrete inputs. -/
def sha256Stub : String → String := fun c => "sha256:" ++ c

/-- C1 (evidence of the code bug): on a fresh vault, two successful
`log_input` writes yield records whose `prev_hash` columns are both
`None`: `_get_last_hash` returns the previous record's `prev_hash`
*field* instead of a hash of that record, so the second record's
`prev_hash` never equals a hash derived from the first record's content
(here `"sha256:a"`), and no record is tied to its predecessor —
recomputing the per-kind chain cannot detect an altered first record. -/
theorem C1_prev_hash_chain_broken :
    ((log_input sha256Stub emptyVault "user" "a" [] "t1").1 = .ok 1) ∧
    ((log_input sha256Stub (log_input sha256Stub emptyVault "user" "a" [] "t1").2
        "user" "b" [] "t2").1 = .ok 2) ∧
    ((log_input sha256Stub (log_input sha256Stub emptyVault "user" "a" [] "t1").2
        "user" "b" [] "t2").2.inputs.map (fun r => r.prev_hash) = [none, none]) ∧
    ((log_input sha256Stub emptyVault "user" "a" [] "t1").2.inputs.map
        (fun r => r.content_hash) = ["sha256:a"]) :=
  ⟨rfl, rfl, rfl, rfl⟩

/-- C8: `get_reasoning_trail` fails with `NotFoundError` for every
execution id carried by no `AgentExecution` record in the vault. -/
theorem C8_get_reasoning_trail_not_found (s : VaultState) (execution_id : Nat)
    (h : ∀ e ∈ s.agent_executions, e.id ≠ execution_id) :
    get_reasoning_trail s execution_id =
      .error (.notFoundError ("Execution " ++ toString execution_id ++ " not found")) := by
  have hfind : s.agent_executions.find? (fun e => e.id == execution_id) = none := by
    rw [List.find?_eq_none]
    intro e he
    simpa using h e he
  rw [get_reasoning_trail, hfind]

/-- Witness for C8: the empty vault knows no execution `1`. -/
theorem C8_get_reasoning_trail_not_found_witness :
    get_reasoning_trail emptyVault 1 =
      .error (.notFoundError ("Execution " ++ toString 1 ++ " not found")) :=
  C8_get_reasoning_trail_not_found emptyVault 1 (by decide)

/-- C9: a second `log_input` whose content string equals an
already-logged content computes the same content hash, violates the
`UNIQUE` constraint on `inputs.content_hash`, fails with a
`StorageError` and leaves the vault exactly as it was — the vault
cannot record the same input content twice. -/
theorem C9_log_input_duplicate_content (compute_hash : String → String)
    (s : VaultState) (src1 src2 content : String) (md1 md2 : Metadata)
    (now1 now2 : String) (id1 : Nat)
    (h : (log_input compute_hash s src1 content md1 now1).1 = .ok id1) :
    log_input compute_hash (log_input compute_hash s src1 content md1 now1).2
        src2 content md2 now2 =
      (.error (.storageError "UNIQUE constraint failed: inputs.content_hash"),
       (log_input compute_hash s src1 content md1 now1).2) := by
  by_cases hdup : s.inputs.any
      (fun r => r.content_hash == compute_hash content) = true
  · rw [log_input] at h
    simp only [if_pos hdup] at h
    exact absurd h (by simp)
  · have h1 : log_input compute_hash s src1 content md1 now1 =
        (.ok (s.inputs.length + 1),
         { s with inputs := s.inputs ++
             [{ id := s.inputs.length + 1, source := src1, content := content,
                content_hash := compute_hash content, meta_data := md1,
                timestamp := now1,
                prev_hash := get_last_hash_inputs s.inputs }] }) := by
      rw [log_input]
      simp only [if_neg hdup]
    rw [h1]
    rw [log_input]
    have hdup2 : ((s.inputs ++
        [({ id := s.inputs.length + 1, source := src1, content := content,
            content_hash := compute_hash content, meta_data := md1,
            timestamp := now1,
            prev_hash := get_last_hash_inputs s.inputs } : InputRecord)]).any
        (fun r => r.content_hash == compute_hash content)) = true := by
      rw [List.any_append]
      simp
    rw [if_pos hdup2]

/-- Witness for C9: logging content `"a"` twice on a fresh vault makes
the second call fail with the `UNIQUE`-constraint `StorageError` while
the state keeps exactly the one record of the first call. -/
theorem C9_log_input_duplicate_content_witness :
    log_input sha256Stub (log_input sha256Stub emptyVault "user" "a" [] "t1").2
        "api" "a" [] "t2" =
      (.error (.storageError "UNIQUE constraint failed: inputs.content_hash"),
       (log_input sha256Stub emptyVault "user" "a" [] "t1").2) :=
  C9_log_input_duplicate_content sha256Stub emptyVault "user" "api" "a" [] [] "t1" "t2" 1 rfl

end SEVAI
